import Mathlib

/-!
Shallow embedding of the buffer-ownership and admission-scheduling core of
the ESPAsyncWebServer library, together with proofs about the properties
its design documentation states.

Machine integers (`size_t`) are modelled as `Nat`; every place where the
C++ code relies on unsigned wrap-around is noted at the definition that
models it.  Heap allocation, which may fail at any time, is modelled by an
explicit success oracle (`Bool` values consumed one per allocation
attempt), so that every possible pattern of allocation success and failure
is covered by quantifying over the oracle.
-/

/-- Model of the `DynamicBuffer` class (`src/unnamed/part_000`): a
malloc-allocated heap buffer.  `data` is the pointer identity (`none`
models `nullptr`, `some p` a non-null pointer `p`); `len` models `_len`. -/
structure DynamicBuffer where
  data : Option Nat
  len : Nat
deriving DecidableEq, Repr

/-- `DynamicBuffer::size()`. -/
def DynamicBuffer.size (b : DynamicBuffer) : Nat := b.len

/-- Modelled from the spec: the body of `DynamicBuffer::DynamicBuffer(size_t len)`
is not under `src/` (only its declaration is).  Per the spec, construction
from a requested length either yields a buffer of exactly that length with
non-null data, or an empty buffer (`size()==0`, `data()==nullptr`) when the
allocation fails, and the invariant `length == 0 iff pointer == null`
holds, so a zero-length request yields the empty buffer.  `ok` is the
allocator's success for this attempt and `p` the fresh pointer identity. -/
def allocBuffer (len : Nat) (ok : Bool) (p : Nat) : DynamicBuffer :=
  if ok ∧ len ≠ 0 then ⟨some p, len⟩ else ⟨none, 0⟩

/-- Move construction `DynamicBuffer(DynamicBuffer&& d)`: the destination
takes the source's pointer and length, and the source is nulled out
(`d._data = nullptr; d._len = 0`).  Returns (destination, moved-from source). -/
def DynamicBuffer.moveCtor (d : DynamicBuffer) : DynamicBuffer × DynamicBuffer :=
  (⟨d.data, d.len⟩, ⟨none, 0⟩)

/-- Move assignment `operator=(DynamicBuffer&& d)`: implemented as
`std::swap(_data, d._data); std::swap(_len, d._len)`.  Given the previous
contents of the destination and of the source, returns the new
(destination, source) pair, i.e. the swap of the two. -/
def DynamicBuffer.moveAssign (dst src : DynamicBuffer) : DynamicBuffer × DynamicBuffer :=
  (⟨src.data, src.len⟩, ⟨dst.data, dst.len⟩)

/-- Model of `SharedBuffer`: a `std::shared_ptr<DynamicBuffer>`; `none`
models the null shared pointer of a default-constructed `SharedBuffer`. -/
structure SharedBuffer where
  buf : Option DynamicBuffer
deriving DecidableEq, Repr

/-- The default constructor `SharedBuffer() = default`: the shared pointer
is null. -/
def SharedBuffer.default : SharedBuffer := ⟨none⟩

/-- `SharedBuffer::data()`: `_buf ? _buf->data() : nullptr` — guarded
against the null shared pointer. -/
def SharedBuffer.data (s : SharedBuffer) : Option Nat :=
  match s.buf with
  | some b => b.data
  | none => none

/-- `SharedBuffer::size()`: `_buf ? _buf->size() : 0U` — guarded against
the null shared pointer. -/
def SharedBuffer.size (s : SharedBuffer) : Nat :=
  match s.buf with
  | some b => b.len
  | none => 0

/-- `SharedBuffer::copy()`: `return *_buf;` — an unguarded dereference of
the shared pointer, whose value (the buffer that the copy is taken from)
exists only when `_buf` is non-null.  `none` models the null-pointer
dereference that occurs when no buffer is held. -/
def SharedBuffer.copy (s : SharedBuffer) : Option DynamicBuffer :=
  match s.buf with
  | some b => some b
  | none => none

/-- One iteration-by-iteration transcription of the `while (total)` loop of
`allocateList` (`src/src/DynamicBuffer.cpp`): each loop iteration computes
`alloc_size = std::min(total, max_buffer_size)`, appends a freshly
constructed buffer of that size (consuming one entry of the allocation
oracle; an exhausted oracle counts as an allocation failure), breaks when
the new buffer's data is null, and otherwise subtracts `alloc_size` from
`total`.  Returns the accumulated buffer list together with the value of
`total` left when the loop exited. -/
def allocateListGo (max_buffer_size : Nat) (total : Nat) (oracle : List Bool) :
    List DynamicBuffer × Nat :=
  if total = 0 then ([], 0)
  else
    match oracle with
    | [] => ([allocBuffer (min total max_buffer_size) false 0], total)
    | ok :: rest =>
      let sz := min total max_buffer_size
      let b := allocBuffer sz ok 0
      if b.data = none then ([b], total)
      else
        let r := allocateListGo max_buffer_size (total - sz) rest
        (b :: r.1, r.2)

/-- `allocateList<list_type>(total, max_buffer_size)`
(`src/src/DynamicBuffer.cpp` lines 41-58): run the allocation loop; if the
loop exited with `total` still nonzero, `buffers.clear()` discards the
whole chain.  Both `allocateDynamicBufferList` and `allocateSharedBufferList`
instantiate this same template, differing only in the element wrapper. -/
def allocateList (total max_buffer_size : Nat) (oracle : List Bool) :
    List DynamicBuffer :=
  let r := allocateListGo max_buffer_size total oracle
  if r.2 ≠ 0 then [] else r.1

/-- `allocateDynamicBufferList` instantiates the `allocateList` template. -/
def allocateDynamicBufferList (total max_buffer_size : Nat) (oracle : List Bool) :
    List DynamicBuffer :=
  allocateList total max_buffer_size oracle

/-- `totalSize` (`src/src/DynamicBuffer.cpp` lines 68-74):
`std::accumulate` of the element sizes starting from `0`. -/
def totalSize (buffers : List DynamicBuffer) : Nat :=
  buffers.foldl (fun s b => s + b.size) 0

/-- `allocateSharedBufferList` instantiates the same `allocateList`
template with `SharedBufferList`; each `SharedBuffer(alloc_size)` element
wraps a freshly constructed `DynamicBuffer(alloc_size)` behind the shared
pointer, so the element sizes and the null-data test coincide with the
`DynamicBuffer` instantiation. -/
def allocateSharedBufferList (total max_buffer_size : Nat) (oracle : List Bool) :
    List SharedBuffer :=
  (allocateList total max_buffer_size oracle).map (fun b => ⟨some b⟩)

/-- `totalSize` overload for `SharedBufferList`
(`src/src/DynamicBuffer.cpp` lines 72-74). -/
def totalSizeShared (buffers : List SharedBuffer) : Nat :=
  buffers.foldl (fun s b => s + b.size) 0

theorem foldl_add_shift {α : Type} (f : α → Nat) (l : List α) :
    ∀ (n : Nat), List.foldl (fun s x => s + f x) n l
      = n + List.foldl (fun s x => s + f x) 0 l := by
  induction l with
  | nil => intro n; simp
  | cons x xs ih =>
    intro n
    simp only [List.foldl_cons]
    rw [ih (n + f x), ih (0 + f x)]
    omega

theorem foldl_size_shift (l : List DynamicBuffer) :
    ∀ (n : Nat), List.foldl (fun s x => s + x.size) n l
      = n + List.foldl (fun s x => s + x.size) 0 l :=
  foldl_add_shift DynamicBuffer.size l

theorem totalSize_nil : totalSize [] = 0 := rfl

theorem totalSize_cons (b : DynamicBuffer) (l : List DynamicBuffer) :
    totalSize (b :: l) = b.size + totalSize l := by
  unfold totalSize
  simp only [List.foldl_cons]
  rw [foldl_size_shift]
  omega

/-- Case analysis on an allocation result: it is either the requested
buffer with non-null data, or the empty buffer with null data. -/
theorem allocBuffer_cases (len : Nat) (ok : Bool) (p : Nat) :
    (allocBuffer len ok p = ⟨some p, len⟩ ∧ (ok ∧ len ≠ 0))
      ∨ allocBuffer len ok p = ⟨none, 0⟩ := by
  unfold allocBuffer
  by_cases h : ok = true ∧ len ≠ 0
  · left; rw [if_pos h]; exact ⟨rfl, h⟩
  · right; rw [if_neg h]

/-- Accounting invariant of the allocation loop: the sizes of the buffers
collected so far plus the remaining `total` equal the requested `total`. -/
theorem allocateListGo_sum (max_buffer_size : Nat) :
    ∀ (oracle : List Bool) (total : Nat),
      totalSize (allocateListGo max_buffer_size total oracle).1
        + (allocateListGo max_buffer_size total oracle).2 = total := by
  intro oracle
  induction oracle with
  | nil =>
    intro total
    unfold allocateListGo
    split
    · simp [totalSize_nil]; omega
    · rcases allocBuffer_cases (min total max_buffer_size) false 0 with ⟨_, ⟨hok, _⟩⟩ | hb
      · exact absurd hok (by simp)
      · simp only [hb, totalSize_cons, totalSize_nil, DynamicBuffer.size]
        omega
  | cons ok rest ih =>
    intro total
    unfold allocateListGo
    split
    · simp [totalSize_nil]; omega
    · rename_i htot
      simp only
      rcases allocBuffer_cases (min total max_buffer_size) ok 0 with ⟨hb, _, hmin⟩ | hb
      · rw [hb]
        have hdata : (⟨some 0, min total max_buffer_size⟩ : DynamicBuffer).data ≠ none := by
          simp
        rw [if_neg hdata]
        simp only [totalSize_cons, DynamicBuffer.size]
        have := ih (total - min total max_buffer_size)
        have hle : min total max_buffer_size ≤ total := Nat.min_le_left _ _
        omega
      · rw [hb]
        have hdata : (⟨none, 0⟩ : DynamicBuffer).data = none := rfl
        rw [if_pos hdata]
        simp only [totalSize_cons, totalSize_nil, DynamicBuffer.size]
        omega

/-- Wrapping every element of a buffer list in a `SharedBuffer` preserves
the total size. -/
theorem totalSizeShared_map_wrap (l : List DynamicBuffer) :
    totalSizeShared (l.map (fun b => ⟨some b⟩)) = totalSize l := by
  induction l with
  | nil => rfl
  | cons b tl ih =>
    unfold totalSizeShared totalSize at *
    simp only [List.map_cons, List.foldl_cons]
    rw [foldl_add_shift SharedBuffer.size, foldl_add_shift DynamicBuffer.size]
    rw [ih]
    rfl

/-- C1: for every requested total, every `max_buffer_size`, and every
pattern of allocation success and failure (the oracle), the list returned
by `allocateDynamicBufferList` / `allocateSharedBufferList` either has
element sizes summing exactly to the requested total, or is empty; a
partially allocated chain is never returned. -/
theorem c1_allocate_all_or_nothing (total max_buffer_size : Nat) (oracle : List Bool) :
    (totalSize (allocateDynamicBufferList total max_buffer_size oracle) = total
      ∨ allocateDynamicBufferList total max_buffer_size oracle = [])
    ∧ (totalSizeShared (allocateSharedBufferList total max_buffer_size oracle) = total
      ∨ allocateSharedBufferList total max_buffer_size oracle = []) := by
  have key : totalSize (allocateList total max_buffer_size oracle) = total
      ∨ allocateList total max_buffer_size oracle = [] := by
    unfold allocateList
    by_cases h : (allocateListGo max_buffer_size total oracle).2 = 0
    · left
      rw [if_neg (by simp [h])]
      have := allocateListGo_sum max_buffer_size oracle total
      omega
    · right
      rw [if_pos h]
  constructor
  · exact key
  · unfold allocateSharedBufferList
    rcases key with h | h
    · left; rw [totalSizeShared_map_wrap]; exact h
    · right; rw [h]; rfl

/-- C7 (failing input): with the default `max_buffer_size = 0` the loop of
`allocateList` computes `alloc_size = std::min(total, 0) = 0`, the
zero-length buffer construction yields null data even though the allocator
would succeed, and the chain is rolled back: the result is the empty list,
not a single element of the requested size.  Evaluated here at
`total = 5` with an all-successful allocator. -/
theorem c7_maxbuffer_zero_yields_empty :
    allocateDynamicBufferList 5 0 [true, true, true] = []
    ∧ allocateSharedBufferList 5 0 [true, true, true] = []
    ∧ totalSize (allocateDynamicBufferList 5 0 [true, true, true]) ≠ 5 := by
  decide

/-- C8 (counterexample): move assignment `operator=(DynamicBuffer&&)` is a
swap, so assigning buffer `⟨ptr 2, 3⟩` into a destination currently
holding `⟨ptr 1, 5⟩` leaves the source holding the destination's old
buffer — size `5` and a non-null pointer, not empty as the claim states. -/
theorem c8_moveassign_counterexample :
    ¬ ((DynamicBuffer.moveAssign ⟨some 1, 5⟩ ⟨some 2, 3⟩).2.size = 0
       ∧ (DynamicBuffer.moveAssign ⟨some 1, 5⟩ ⟨some 2, 3⟩).2.data = none) := by
  decide

/-- C8 (amended): move construction transfers ownership and leaves the
source empty (`size()==0`, `data()==nullptr`), the destination holding the
original pointer and length; move assignment instead swaps the two
buffers, so the source is left holding the destination's previous buffer
(and is empty only when the destination was empty). -/
theorem c8_move_semantics (d dst src : DynamicBuffer) :
    (d.moveCtor.1 = d ∧ d.moveCtor.2.size = 0 ∧ d.moveCtor.2.data = none)
    ∧ DynamicBuffer.moveAssign dst src = (src, dst) :=
  ⟨⟨rfl, rfl, rfl⟩, rfl⟩

/-- C10: `SharedBuffer::copy()` dereferences the internal shared pointer
unconditionally; on a default-constructed `SharedBuffer` there is no held
buffer to copy (the dereference is of a null pointer, modelled as `none`),
even though `data()` and `size()` guard this case and report `nullptr` and
`0`; whenever a buffer is actually held, `copy()` yields exactly that
buffer's contents to copy from. -/
theorem c10_shared_copy_precondition :
    (SharedBuffer.default.copy = none
      ∧ SharedBuffer.default.data = none
      ∧ SharedBuffer.default.size = 0)
    ∧ ∀ b : DynamicBuffer, (SharedBuffer.mk (some b)).copy = some b :=
  ⟨⟨rfl, rfl, rfl⟩, fun _ => rfl⟩

/-- Model of the `Walkable<buffer_type>` windowed buffer
(`src/unnamed/part_000` lines 160-239): the underlying buffer's size
(`_buf.size()`, here `cap`) and the two consumed offsets `_left` and
`_right`.  `size_t` arithmetic is modelled by `Nat`; the places where the
C++ relies on unsigned wrap-around (`_left += count` with a negative
`count`) are only reached when `|count| ≤ _left`, where the wrap-around
equals ordinary subtraction. -/
structure Walkable where
  cap : Nat
  left : Nat
  right : Nat
deriving DecidableEq, Repr

/-- `Walkable::offset()`. -/
def Walkable.offset (w : Walkable) : Nat := w.left

/-- `Walkable::roffset()`. -/
def Walkable.roffset (w : Walkable) : Nat := w.right

/-- `Walkable::size()`: `_buf.size() - (_left + _right)`. -/
def Walkable.size (w : Walkable) : Nat := w.cap - (w.left + w.right)

/-- A freshly constructed `Walkable` over a buffer of size `cap`:
`_left = _right = 0`. -/
def Walkable.fresh (cap : Nat) : Walkable := ⟨cap, 0, 0⟩

/-- `Walkable::advance(ptrdiff_t count)`: a positive count clamps `_left`
at `_buf.size() - _right`; a non-positive one subtracts `|count|` when
that much has been consumed, and otherwise resets `_left` to zero rather
than wrapping. -/
def Walkable.advance (w : Walkable) (count : Int) : Walkable :=
  if 0 < count then
    { w with left := min (w.left + count.toNat) (w.cap - w.right) }
  else if count.natAbs ≤ w.left then
    { w with left := w.left - count.natAbs }
  else
    { w with left := 0 }

/-- `Walkable::radvance(ptrdiff_t count)`: mirror image of `advance`,
acting on `_right` and clamping at `_buf.size() - _left`. -/
def Walkable.radvance (w : Walkable) (count : Int) : Walkable :=
  if 0 < count then
    { w with right := min (w.right + count.toNat) (w.cap - w.left) }
  else if count.natAbs ≤ w.right then
    { w with right := w.right - count.natAbs }
  else
    { w with right := 0 }

/-- One call in a sequence of window-consuming operations. -/
inductive WalkOp
  | advance (count : Int)
  | radvance (count : Int)
deriving DecidableEq, Repr

/-- Apply a sequence of `advance`/`radvance` calls in order. -/
def Walkable.applyOps (w : Walkable) : List WalkOp → Walkable
  | [] => w
  | WalkOp.advance c :: rest => (w.advance c).applyOps rest
  | WalkOp.radvance c :: rest => (w.radvance c).applyOps rest

/-- Neither `advance` nor `radvance` touches the underlying buffer. -/
theorem Walkable.advance_cap (w : Walkable) (c : Int) : (w.advance c).cap = w.cap := by
  unfold advance
  split
  · rfl
  · split <;> rfl

theorem Walkable.radvance_cap (w : Walkable) (c : Int) : (w.radvance c).cap = w.cap := by
  unfold radvance
  split
  · rfl
  · split <;> rfl

/-- `advance` preserves the window invariant `left + right ≤ cap`. -/
theorem Walkable.advance_invariant (w : Walkable) (c : Int)
    (h : w.left + w.right ≤ w.cap) :
    (w.advance c).left + (w.advance c).right ≤ (w.advance c).cap := by
  unfold advance
  split
  · simp only
    have hmin : min (w.left + c.toNat) (w.cap - w.right) ≤ w.cap - w.right :=
      Nat.min_le_right _ _
    omega
  · split
    · simp only
      omega
    · simp only
      omega

/-- `radvance` preserves the window invariant `left + right ≤ cap`. -/
theorem Walkable.radvance_invariant (w : Walkable) (c : Int)
    (h : w.left + w.right ≤ w.cap) :
    (w.radvance c).left + (w.radvance c).right ≤ (w.radvance c).cap := by
  unfold radvance
  split
  · simp only
    have hmin : min (w.right + c.toNat) (w.cap - w.left) ≤ w.cap - w.left :=
      Nat.min_le_right _ _
    omega
  · split
    · simp only
      omega
    · simp only
      omega

/-- The invariant is preserved by any finite sequence of calls. -/
theorem Walkable.applyOps_invariant (ops : List WalkOp) :
    ∀ (w : Walkable), w.left + w.right ≤ w.cap →
      (w.applyOps ops).left + (w.applyOps ops).right ≤ (w.applyOps ops).cap
        ∧ (w.applyOps ops).cap = w.cap := by
  induction ops with
  | nil => intro w h; exact ⟨h, rfl⟩
  | cons op rest ih =>
    intro w h
    cases op with
    | advance c =>
      have h1 := Walkable.advance_invariant w c h
      have h2 := Walkable.advance_cap w c
      have := ih (w.advance c) (by rw [h2] at h1 ⊢; omega)
      constructor
      · exact this.1
      · exact this.2.trans h2
    | radvance c =>
      have h1 := Walkable.radvance_invariant w c h
      have h2 := Walkable.radvance_cap w c
      have := ih (w.radvance c) (by rw [h2] at h1 ⊢; omega)
      constructor
      · exact this.1
      · exact this.2.trans h2

/-- C5: for a `Walkable` over a buffer of capacity `C`, every finite
sequence of `advance`/`radvance` calls with arbitrary signed deltas keeps
`offset() + roffset() ≤ C`, and equivalently
`size() + offset() + roffset() = C` (the offsets are `Nat`, hence
never negative: positive deltas are clamped at the opposite offset and
negative deltas beyond the consumed amount reset the offset to zero). -/
theorem c5_walkable_window_invariant (C : Nat) (ops : List WalkOp) :
    ((Walkable.fresh C).applyOps ops).offset
        + ((Walkable.fresh C).applyOps ops).roffset ≤ C
    ∧ ((Walkable.fresh C).applyOps ops).size
        + ((Walkable.fresh C).applyOps ops).offset
        + ((Walkable.fresh C).applyOps ops).roffset = C := by
  have h := Walkable.applyOps_invariant ops (Walkable.fresh C) (by simp [Walkable.fresh])
  have hcap : ((Walkable.fresh C).applyOps ops).cap = C := h.2
  have hinv := h.1
  rw [hcap] at hinv
  unfold Walkable.offset Walkable.roffset Walkable.size
  rw [hcap]
  omega

/-- `memcpy(dst + off, src, src.length)` on a byte list: overwrite
`src.length` bytes of `dst` starting at `off` (assumes
`off + src.length ≤ dst.length`, which holds at every call site below). -/
def listWriteAt (dst : List Nat) (off : Nat) (src : List Nat) : List Nat :=
  dst.take off ++ src ++ dst.drop (off + src.length)

/-- State of a `BufferListPrint<list_type>` (`src/unnamed/part_000` lines
100-152).  The chain elements are byte lists (`list`), the cursor is the
index `next` of `_next` into the chain (`list.length` models
`_list.end()`), `off` models `_offset`, `valid` models `_valid` and
`bufferSize` models `_buffer_size`.  A fresh allocation's bytes are
modelled as zeros. -/
structure BufferListPrint where
  list : List (List Nat)
  next : Nat
  off : Nat
  valid : Bool
  bufferSize : Nat
deriving DecidableEq, Repr

/-- Result of the `while(size)` loop of `BufferListPrint::write`. -/
structure BLPLoopResult where
  written : Nat
  list : List (List Nat)
  next : Nat
  off : Nat
  valid : Bool
  oracle : List Bool
deriving DecidableEq, Repr

/-- The `while(size)` loop of `BufferListPrint::write`
(`src/unnamed/part_000` lines 116-142), one recursive call per loop
iteration.  The cursor reaches `_list.end()` only with `_offset == 0` (the
roll-over at the bottom of the loop resets the offset), so the iteration
that appends a growth element copies into it from offset `0`; the
`_offset == _next->size()` roll-over at the bottom of an iteration is
modelled as the no-copy cursor-advance step at the top of the next one.
`size_t` subtractions (`_next->size() - _offset`) assume
`_offset ≤ _next->size()`, which holds in every reachable state.
Allocating a growth element consumes one oracle entry; an exhausted oracle
counts as an allocation failure (`!_list.back().size()`), which pops the
element again and latches `_valid = false`. -/
def blpGo (bsize : Nat) (lst : List (List Nat)) (next off : Nat)
    (input : List Nat) (oracle : List Bool) (written : Nat) : BLPLoopResult :=
  if hin : input = [] then ⟨written, lst, next, off, true, oracle⟩
  else
    if hend : lst.length ≤ next then
      if hbs : 0 < bsize then
        match oracle with
        | [] => ⟨written, lst, next, off, false, []⟩
        | ok :: rest =>
          if ok then
            if hfill : min bsize input.length = bsize then
              blpGo bsize
                (lst ++ [listWriteAt (List.replicate bsize 0) 0 (input.take (min bsize input.length))])
                (lst.length + 1) 0 (input.drop (min bsize input.length)) rest
                (written + min bsize input.length)
            else
              blpGo bsize
                (lst ++ [listWriteAt (List.replicate bsize 0) 0 (input.take (min bsize input.length))])
                lst.length (min bsize input.length) (input.drop (min bsize input.length)) rest
                (written + min bsize input.length)
          else ⟨written, lst, next, off, false, rest⟩
      else ⟨written, lst, next, off, false, oracle⟩
    else
      if hrem : (lst.getD next []).length ≤ off then
        blpGo bsize lst (next + 1) 0 input oracle written
      else
        if hadv : off + min ((lst.getD next []).length - off) input.length
            = (lst.getD next []).length then
          blpGo bsize
            (lst.set next (listWriteAt (lst.getD next []) off
              (input.take (min ((lst.getD next []).length - off) input.length))))
            (next + 1) 0
            (input.drop (min ((lst.getD next []).length - off) input.length)) oracle
            (written + min ((lst.getD next []).length - off) input.length)
        else
          blpGo bsize
            (lst.set next (listWriteAt (lst.getD next []) off
              (input.take (min ((lst.getD next []).length - off) input.length))))
            next (off + min ((lst.getD next []).length - off) input.length)
            (input.drop (min ((lst.getD next []).length - off) input.length)) oracle
            (written + min ((lst.getD next []).length - off) input.length)
termination_by (input.length, lst.length - next)
decreasing_by
  all_goals simp_wf
  all_goals
    first
      | omega
      | (apply Prod.Lex.left
         have hlen : 0 < input.length := List.length_pos.mpr hin
         omega)
      | (apply Prod.Lex.left
         have hlen : 0 < input.length := List.length_pos.mpr hin
         simp only [List.getD_eq_getElem?_getD] at hrem
         omega)

/-- `BufferListPrint::write(const uint8_t* buffer, size_t size)`: the
short-circuit `if (!_valid) return 0;` followed by the loop.  Returns
(bytes written, new state, remaining oracle). -/
def BufferListPrint.write (s : BufferListPrint) (input : List Nat)
    (oracle : List Bool) : Nat × BufferListPrint × List Bool :=
  if s.valid = false then (0, s, oracle)
  else
    let r := blpGo s.bufferSize s.list s.next s.off input oracle 0
    (r.written, ⟨r.list, r.next, r.off, r.valid, s.bufferSize⟩, r.oracle)

/-- Run a sequence of `write` calls, each with its own input bytes and
allocation oracle; returns the list of per-call return values and the
final state. -/
def BufferListPrint.writeAll (s : BufferListPrint) :
    List (List Nat × List Bool) → List Nat × BufferListPrint
  | [] => ([], s)
  | c :: rest =>
    ((s.write c.1 c.2).1 :: ((s.write c.1 c.2).2.1.writeAll rest).1,
      ((s.write c.1 c.2).2.1.writeAll rest).2)

/-- Accounting of the write loop: the returned `written` counter is at
least its starting value, exceeds it by at most the input length, and
equals `written + input.length` exactly when the loop ran to completion
(result still valid). -/
theorem blpGo_written_bounds (bsize : Nat) (lst : List (List Nat)) (next off : Nat)
    (input : List Nat) (oracle : List Bool) (written : Nat) :
    written ≤ (blpGo bsize lst next off input oracle written).written
    ∧ (blpGo bsize lst next off input oracle written).written ≤ written + input.length
    ∧ ((blpGo bsize lst next off input oracle written).valid = true →
        (blpGo bsize lst next off input oracle written).written = written + input.length) := by
  induction lst, next, off, input, oracle, written using blpGo.induct bsize with
  | case1 lst next off oracle written =>
    rw [blpGo.eq_def]
    simp
  | case2 lst next off input written hin hend hbs =>
    rw [blpGo.eq_def]
    simp [hin, hend, hbs]
  | case3 lst next off input written hin hend hbs rest hfill ih =>
    rw [blpGo.eq_def]
    simp only [dif_neg hin, dif_pos hend, dif_pos hbs, if_pos rfl, dif_pos hfill,
      eq_self_iff_true, if_true, ite_true]
    obtain ⟨ih1, ih2, ih3⟩ := ih
    simp only [List.length_drop] at ih2 ih3
    have ht : bsize ⊓ input.length ≤ input.length := Nat.min_le_right _ _
    refine ⟨by omega, by omega, fun hv => ?_⟩
    have := ih3 hv
    omega
  | case4 lst next off input written hin hend hbs rest hfill ih =>
    rw [blpGo.eq_def]
    simp only [dif_neg hin, dif_pos hend, dif_pos hbs, if_pos rfl, dif_neg hfill,
      eq_self_iff_true, if_true, ite_true]
    obtain ⟨ih1, ih2, ih3⟩ := ih
    simp only [List.length_drop] at ih2 ih3
    have ht : bsize ⊓ input.length ≤ input.length := Nat.min_le_right _ _
    refine ⟨by omega, by omega, fun hv => ?_⟩
    have := ih3 hv
    omega
  | case5 lst next off input written hin hend hbs ok rest hok =>
    rw [blpGo.eq_def]
    simp [hin, hend, hbs, hok]
  | case6 lst next off input oracle written hin hend hbs =>
    rw [blpGo.eq_def]
    simp [hin, hend, hbs]
  | case7 lst next off input oracle written hin hend hrem ih =>
    rw [blpGo.eq_def]
    simp only [dif_neg hin, dif_neg hend, dif_pos hrem]
    exact ih
  | case8 lst next off input oracle written hin hend hrem hadv ih =>
    rw [blpGo.eq_def]
    simp only [dif_neg hin, dif_neg hend, dif_neg hrem, dif_pos hadv]
    obtain ⟨ih1, ih2, ih3⟩ := ih
    simp only [List.length_drop] at ih2 ih3
    have ht : ((lst.getD next []).length - off) ⊓ input.length ≤ input.length :=
      Nat.min_le_right _ _
    refine ⟨by omega, by omega, fun hv => ?_⟩
    have := ih3 hv
    omega
  | case9 lst next off input oracle written hin hend hrem hadv ih =>
    rw [blpGo.eq_def]
    simp only [dif_neg hin, dif_neg hend, dif_neg hrem, dif_neg hadv]
    obtain ⟨ih1, ih2, ih3⟩ := ih
    simp only [List.length_drop] at ih2 ih3
    have ht : ((lst.getD next []).length - off) ⊓ input.length ≤ input.length :=
      Nat.min_le_right _ _
    refine ⟨by omega, by omega, fun hv => ?_⟩
    have := ih3 hv
    omega

/-- The short-circuit of `BufferListPrint::write`: with `_valid` false the
call returns `0` and changes nothing. -/
theorem BufferListPrint.write_invalid (s : BufferListPrint) (input : List Nat)
    (oracle : List Bool) (h : s.valid = false) :
    s.write input oracle = (0, s, oracle) := by
  unfold BufferListPrint.write
  rw [if_pos h]

/-- C6: `BufferListPrint::write` returns the number of bytes actually
copied into the chain — never more than the input, and exactly the whole
input whenever the call completes with the `valid` flag still set; and
once `valid` has become false, every subsequent `write` call (any sequence
of them, with any inputs and any allocation oracles) returns `0` and
leaves the chain and the cursor unchanged — the failure is latched
permanently and surfaces only as a `0` return value, never as an
exception. -/
theorem c6_chainwriter_write (s : BufferListPrint)
    (calls : List (List Nat × List Bool)) (input : List Nat) (oracle : List Bool) :
    (s.valid = false →
      s.writeAll calls = (List.replicate calls.length 0, s))
    ∧ (s.write input oracle).1 ≤ input.length
    ∧ (s.valid = true → (s.write input oracle).2.1.valid = true →
        (s.write input oracle).1 = input.length) := by
  refine ⟨?_, ?_, ?_⟩
  · intro h
    induction calls with
    | nil => rfl
    | cons c rest ih =>
      unfold BufferListPrint.writeAll
      rw [BufferListPrint.write_invalid s c.1 c.2 h]
      simp only [List.length_cons, List.replicate_succ]
      rw [ih]
  · unfold BufferListPrint.write
    by_cases h : s.valid = false
    · rw [if_pos h]
      exact Nat.zero_le _
    · rw [if_neg h]
      have hb := blpGo_written_bounds s.bufferSize s.list s.next s.off input oracle 0
      simpa using hb.2.1
  · intro hv hres
    unfold BufferListPrint.write at hres ⊢
    rw [if_neg (by simp [hv])] at hres ⊢
    have hb := blpGo_written_bounds s.bufferSize s.list s.next s.off input oracle 0
    have := hb.2.2 (by simpa using hres)
    simpa using this

/-- Witness for C6 at concrete inputs: an already-invalid writer over a
one-element chain ignores a two-call sequence, returning `0` twice; a
valid non-growing writer over a two-byte element accepts a one-byte write
in full. -/
theorem c6_chainwriter_write_witness :
    ((BufferListPrint.mk [[9, 9]] 0 0 false 0).writeAll [([1, 2], []), ([3], [])]
        = ([0, 0], BufferListPrint.mk [[9, 9]] 0 0 false 0))
    ∧ ((BufferListPrint.mk [[9, 9]] 0 0 true 0).write [5] []).1 = 1 := by
  constructor
  · exact (c6_chainwriter_write (BufferListPrint.mk [[9, 9]] 0 0 false 0)
      [([1, 2], []), ([3], [])] [] []).1 rfl
  · refine (c6_chainwriter_write (BufferListPrint.mk [[9, 9]] 0 0 true 0)
      [] [5] []).2.2 rfl ?_
    simp [BufferListPrint.write, blpGo, listWriteAt]

/-- Model of `BufferPrint<buffer_type>` (`src/unnamed/part_000` lines
242-264): a fixed underlying buffer (`buf`, of length `_buf.size()`) and
the write cursor `offset`. -/
structure BufferPrint where
  buf : List Nat
  offset : Nat
deriving DecidableEq, Repr

/-- `BufferPrint::write(const uint8_t* buffer, size_t size)`
(`src/unnamed/part_000` lines 250-255): clamp the size to the remaining
room (`size = std::min(size, _buf.size() - offset)`), then
`memcpy(_buf.data(), buffer, size)` — note the destination is the start
of the buffer, not `_buf.data() + offset` — then advance `offset` and
return the clamped size. -/
def BufferPrint.write (p : BufferPrint) (input : List Nat) : Nat × BufferPrint :=
  (min input.length (p.buf.length - p.offset),
    ⟨listWriteAt p.buf 0 (input.take (min input.length (p.buf.length - p.offset))),
      p.offset + min input.length (p.buf.length - p.offset)⟩)

/-- C9 (evaluation at the failing input): writing the byte `7` and then
the byte `8` through a `BufferPrint` over a two-byte buffer returns `1`
from each call, exactly like a `BufferListPrint` with growth disabled over
the one-element chain holding that buffer — but the final contents differ:
`BufferPrint` lays both writes down at the start of the buffer, giving
`[8, 0]`, while the chain writer appends at the cursor, giving `[7, 8]`.
The second write is not appended at the cursor offset, contradicting the
claimed equivalence. -/
theorem c9_bufferprint_diverges :
    (((BufferPrint.mk [0, 0] 0).write [7]).1 = 1
      ∧ ((((BufferPrint.mk [0, 0] 0).write [7]).2).write [8]).1 = 1
      ∧ ((((BufferPrint.mk [0, 0] 0).write [7]).2).write [8]).2.buf = [8, 0])
    ∧ (((BufferListPrint.mk [[0, 0]] 0 0 true 0).write [7] []).1 = 1
      ∧ ((((BufferListPrint.mk [[0, 0]] 0 0 true 0).write [7] []).2.1).write [8] []).1 = 1
      ∧ ((((BufferListPrint.mk [[0, 0]] 0 0 true 0).write [7] []).2.1).write [8] []).2.1.list
          = [[7, 8]])
    ∧ ((((BufferPrint.mk [0, 0] 0).write [7]).2).write [8]).2.buf
        ≠ (((((BufferListPrint.mk [[0, 0]] 0 0 true 0).write [7] []).2.1).write [8]
            []).2.1.list).headD [] := by
  refine ⟨⟨?_, ?_, ?_⟩, ⟨?_, ?_, ?_⟩, ?_⟩ <;>
    simp [BufferPrint.write, BufferListPrint.write, blpGo, listWriteAt]

/-- A request-queue entry: the identity of the `AsyncWebServerRequest*`
pointer (`id`) and its `_parseState` tag.  `processQueue` recognises
`100` (STATE_END / active-handled), `200` (STATE_QUEUED) and `201`
(deferred); other values belong to the parser and are ignored by the
scheduler. -/
structure QueueEntry where
  id : Nat
  parseState : Nat
deriving DecidableEq, Repr

/-- The `AsyncWebServerQueueLimits` struct.  Its definition is in the
header, not under `src/`; the field set is modelled from its uses in
`src/unnamed/part_003` (`nMax`, `nParallel`, `requestHeapRequired`,
`queueHeapRequired`) and the spec's `AdmissionLimits`, zero meaning
unlimited. -/
structure AsyncWebServerQueueLimits where
  nMax : Nat
  nParallel : Nat
  requestHeapRequired : Nat
  queueHeapRequired : Nat
deriving DecidableEq, Repr

/-- The `active_entries` count of one scan of the queue in
`processQueue`: the number of entries with `_parseState == 100`. -/
def countActive (q : List QueueEntry) : Nat :=
  (q.filter (fun e => e.parseState = 100)).length

/-- The number of entries with `_parseState == 200` (used only as the
termination measure of the dispatch loop). -/
def countQueued (q : List QueueEntry) : Nat :=
  (q.filter (fun e => e.parseState = 200)).length

/-- The `next_queued_request` of one scan: the first entry (in queue
order) whose `_parseState == 200`. -/
def firstQueued : List QueueEntry → Option QueueEntry
  | [] => none
  | e :: rest => if e.parseState = 200 then some e else firstQueued rest

/-- Modelled from the spec: `AsyncWebServerRequest::_handleRequest` is not
under `src/`; per the spec's dispatch step, dispatching the selected entry
tags it ACTIVE and invokes its handling callback (whose external effects
are out of scope here).  `dispatchFirst` sets the `_parseState` of the
entry that `firstQueued` found — the first QUEUED one — to `100`. -/
def dispatchFirst : List QueueEntry → List QueueEntry
  | [] => []
  | e :: rest =>
    if e.parseState = 200 then { e with parseState := 100 } :: rest
    else e :: dispatchFirst rest

theorem countQueued_cons (e : QueueEntry) (l : List QueueEntry) :
    countQueued (e :: l)
      = (if e.parseState = 200 then 1 else 0) + countQueued l := by
  unfold countQueued
  by_cases h : e.parseState = 200
  · simp [List.filter_cons, h]
    omega
  · simp [List.filter_cons, h]

theorem countActive_cons (e : QueueEntry) (l : List QueueEntry) :
    countActive (e :: l)
      = (if e.parseState = 100 then 1 else 0) + countActive l := by
  unfold countActive
  by_cases h : e.parseState = 100
  · simp [List.filter_cons, h]
    omega
  · simp [List.filter_cons, h]

/-- Dispatching the first queued entry lowers the queued count by one. -/
theorem countQueued_dispatchFirst :
    ∀ (q : List QueueEntry) (e : QueueEntry), firstQueued q = some e →
      countQueued (dispatchFirst q) + 1 = countQueued q := by
  intro q
  induction q with
  | nil => intro e h; exact absurd h (by simp [firstQueued])
  | cons a rest ih =>
    intro e h
    unfold firstQueued at h
    unfold dispatchFirst
    by_cases ha : a.parseState = 200
    · rw [if_pos ha] at *
      rw [countQueued_cons, countQueued_cons]
      simp only [ha]
      have hno : ¬ (100 : Nat) = 200 := by omega
      simp [hno]
      omega
    · rw [if_neg ha] at *
      rw [countQueued_cons, countQueued_cons]
      have := ih e h
      omega

/-- Dispatching the first queued entry raises the active count by one. -/
theorem countActive_dispatchFirst :
    ∀ (q : List QueueEntry) (e : QueueEntry), firstQueued q = some e →
      countActive (dispatchFirst q) = countActive q + 1 := by
  intro q
  induction q with
  | nil => intro e h; exact absurd h (by simp [firstQueued])
  | cons a rest ih =>
    intro e h
    unfold firstQueued at h
    unfold dispatchFirst
    by_cases ha : a.parseState = 200
    · rw [if_pos ha] at *
      rw [countActive_cons, countActive_cons]
      have hno : ¬ (100 : Nat) = 100 → False := fun k => k rfl
      simp only [ha]
      have h200 : ¬ (200 : Nat) = 100 := by omega
      simp [h200]
      omega
    · rw [if_neg ha] at *
      rw [countActive_cons, countActive_cons]
      have := ih e h
      omega

/-- The `do { ... } while(1)` dispatch loop of `AsyncWebServer::processQueue`
(`src/unnamed/part_003` lines 353-374), one recursive call per iteration.
Each iteration recomputes `heap_ok` (`ESP.getFreeHeap()` is modelled as the
fixed value `freeHeap` for the duration of the pass), scans the queue for
the active count and the first QUEUED entry, and exits when there is no
queued entry, when a configured parallelism limit is reached, or when at
least one entry is active and the heap is below the combined
`requestHeapRequired + queueHeapRequired` threshold; otherwise it
dispatches the selected entry (see `dispatchFirst`) and loops.  Returns
the final queue together with the ids dispatched, in dispatch order. -/
def processLoop (limits : AsyncWebServerQueueLimits) (freeHeap : Nat)
    (q : List QueueEntry) : List QueueEntry × List Nat :=
  match hfq : firstQueued q with
  | none => (q, [])
  | some e =>
    if limits.nParallel ≠ 0 ∧ limits.nParallel ≤ countActive q then (q, [])
    else if countActive q ≠ 0
        ∧ ¬(limits.requestHeapRequired + limits.queueHeapRequired ≤ freeHeap) then
      (q, [])
    else
      ((processLoop limits freeHeap (dispatchFirst q)).1,
        e.id :: (processLoop limits freeHeap (dispatchFirst q)).2)
termination_by countQueued q
decreasing_by
  have := countQueued_dispatchFirst q e hfq
  omega

/-- The un-defer sweep at the end of `processQueue`: every entry with
`_parseState == 201` is set back to `200`. -/
def undefer (q : List QueueEntry) : List QueueEntry :=
  q.map (fun e => if e.parseState = 201 then { e with parseState := 200 } else e)

/-- `AsyncWebServer::processQueue` (`src/unnamed/part_003` lines 328-384):
if a pass is already active (`_queueActive`), return immediately;
otherwise mark the pass active, run the dispatch loop, un-defer the
deferred entries and clear the flag.  Returns (new queue, dispatched ids
in order, final `_queueActive` flag). -/
def processQueue (limits : AsyncWebServerQueueLimits) (freeHeap : Nat)
    (queueActive : Bool) (q : List QueueEntry) :
    List QueueEntry × List Nat × Bool :=
  if queueActive then (q, [], true)
  else
    (undefer (processLoop limits freeHeap q).1,
      (processLoop limits freeHeap q).2, false)

/-- `LinkedList::remove(const T&)` on the request queue: unlink the first
entry whose value (the request pointer, here its `id`) matches. -/
def removeEntry : List QueueEntry → Nat → List QueueEntry
  | [], _ => []
  | e :: rest, r => if e.id = r then rest else e :: removeEntry rest r

/-- `AsyncWebServer::_dequeue` (`src/unnamed/part_003` lines 386-393):
remove the request from the queue, then run a scheduling pass. -/
def dequeue (limits : AsyncWebServerQueueLimits) (freeHeap : Nat)
    (q : List QueueEntry) (r : Nat) : List QueueEntry × List Nat × Bool :=
  processQueue limits freeHeap false (removeEntry q r)

/-- Once at least one entry is active and the heap is below the combined
threshold, the dispatch loop stops without dispatching anything. -/
theorem processLoop_blocked (limits : AsyncWebServerQueueLimits) (freeHeap : Nat)
    (q : List QueueEntry) (hact : countActive q ≠ 0)
    (hheap : ¬(limits.requestHeapRequired + limits.queueHeapRequired ≤ freeHeap)) :
    processLoop limits freeHeap q = (q, []) := by
  rw [processLoop.eq_def]
  split
  · rfl
  · split
    · rfl
    · rw [if_pos ⟨hact, hheap⟩]

/-- C2: in a queue with no ACTIVE entry (`_parseState == 100`) and at
least one QUEUED entry (`_parseState == 200`), a `processQueue` pass with
the free heap below the combined
`requestHeapRequired + queueHeapRequired` threshold dispatches exactly
one request — the first queued entry `e` (its `_handleRequest` is
invoked, tagging it active), after which the heap check blocks every
further dispatch of the pass. -/
theorem c2_forward_progress (limits : AsyncWebServerQueueLimits) (freeHeap : Nat)
    (q : List QueueEntry) (e : QueueEntry)
    (hact : countActive q = 0)
    (hq : firstQueued q = some e)
    (hheap : freeHeap < limits.requestHeapRequired + limits.queueHeapRequired) :
    (processQueue limits freeHeap false q).2.1 = [e.id] := by
  have hloop : processLoop limits freeHeap q
      = ((processLoop limits freeHeap (dispatchFirst q)).1,
          e.id :: (processLoop limits freeHeap (dispatchFirst q)).2) := by
    rw [processLoop.eq_def]
    split
    · rename_i hfq
      rw [hq] at hfq
      exact absurd hfq (by simp)
    · rename_i e2 hfq
      rw [hq] at hfq
      have he2 : e = e2 := by injection hfq
      subst he2
      rw [if_neg (by intro hk; omega), if_neg (by intro hk; exact hk.1 hact)]
  have hblocked : processLoop limits freeHeap (dispatchFirst q)
      = (dispatchFirst q, []) := by
    apply processLoop_blocked
    · rw [countActive_dispatchFirst q e hq]
      omega
    · omega
  unfold processQueue
  rw [if_neg (by simp)]
  simp only [hloop, hblocked]

/-- Witness for C2: a queue holding one queued request (id 1), limits
requiring `5 + 5` bytes of heap, and only `3` bytes free — the pass still
dispatches exactly request 1. -/
theorem c2_forward_progress_witness :
    countActive [QueueEntry.mk 1 200] = 0
    ∧ firstQueued [QueueEntry.mk 1 200] = some (QueueEntry.mk 1 200)
    ∧ (3 : Nat) < 5 + 5
    ∧ (processQueue (AsyncWebServerQueueLimits.mk 0 0 5 5) 3 false
        [QueueEntry.mk 1 200]).2.1 = [1] :=
  ⟨rfl, rfl, by omega,
    c2_forward_progress (AsyncWebServerQueueLimits.mk 0 0 5 5) 3
      [QueueEntry.mk 1 200] (QueueEntry.mk 1 200) rfl rfl (by decide)⟩

/-- C3: with a parallelism limit of 1, three requests queued as A, B, C
(in that order, any ids, any free-heap value) are dispatched in strict
FIFO order: the first pass dispatches exactly A and leaves B and C queued;
after A is dequeued the next pass dispatches exactly B; after B is
dequeued the final pass dispatches exactly C. -/
theorem c3_fifo_order (limits : AsyncWebServerQueueLimits) (freeHeap : Nat)
    (a b c : Nat) (hpar : limits.nParallel = 1) :
    ((processQueue limits freeHeap false
        [QueueEntry.mk a 200, QueueEntry.mk b 200, QueueEntry.mk c 200]).2.1 = [a]
      ∧ (processQueue limits freeHeap false
        [QueueEntry.mk a 200, QueueEntry.mk b 200, QueueEntry.mk c 200]).1
        = [QueueEntry.mk a 100, QueueEntry.mk b 200, QueueEntry.mk c 200])
    ∧ ((dequeue limits freeHeap
        [QueueEntry.mk a 100, QueueEntry.mk b 200, QueueEntry.mk c 200] a).2.1 = [b]
      ∧ (dequeue limits freeHeap
        [QueueEntry.mk a 100, QueueEntry.mk b 200, QueueEntry.mk c 200] a).1
        = [QueueEntry.mk b 100, QueueEntry.mk c 200])
    ∧ ((dequeue limits freeHeap [QueueEntry.mk b 100, QueueEntry.mk c 200] b).2.1 = [c]
      ∧ (dequeue limits freeHeap [QueueEntry.mk b 100, QueueEntry.mk c 200] b).1
        = [QueueEntry.mk c 100]) := by
  refine ⟨⟨?_, ?_⟩, ⟨?_, ?_⟩, ⟨?_, ?_⟩⟩ <;>
    simp [processQueue, dequeue, undefer, removeEntry, processLoop, dispatchFirst,
      firstQueued, countActive, countQueued, hpar]

/-- Witness for C3 at concrete ids 1, 2, 3 with limits
`{nMax 0, nParallel 1, heap 4 + 4}` and free heap 100. -/
theorem c3_fifo_order_witness :
    (processQueue (AsyncWebServerQueueLimits.mk 0 1 4 4) 100 false
        [QueueEntry.mk 1 200, QueueEntry.mk 2 200, QueueEntry.mk 3 200]).2.1 = [1]
    ∧ (dequeue (AsyncWebServerQueueLimits.mk 0 1 4 4) 100
        [QueueEntry.mk 1 100, QueueEntry.mk 2 200, QueueEntry.mk 3 200] 1).2.1 = [2]
    ∧ (dequeue (AsyncWebServerQueueLimits.mk 0 1 4 4) 100
        [QueueEntry.mk 2 100, QueueEntry.mk 3 200] 2).2.1 = [3] := by
  have h := c3_fifo_order (AsyncWebServerQueueLimits.mk 0 1 4 4) 100 1 2 3 rfl
  exact ⟨h.1.1, h.2.1.1, h.2.2.1⟩

/-- The observable outcome of the `onClient` connection-accepted handler
(`src/unnamed/part_003` lines 127-173). -/
inductive ClientAction
  /-- Critically low heap: `c->close(true); delete c;` — connection closed
  immediately, nothing written, no request object allocated. -/
  | drop
  /-- Queue-limit rejection: handlers are installed so that the first data
  from the client triggers `minimal_send_503` (the pre-formatted
  `HTTP/1.1 503 Service Unavailable` line) before the connection closes;
  no request object is allocated. -/
  | reject503
  /-- Admitted: an `AsyncWebServerRequest` is allocated and enqueued. -/
  | accept
  /-- Admission attempted but the request allocation failed: close and
  free the client. -/
  | abortAllocFail
deriving DecidableEq, Repr

/-- The branch structure of the `onClient` lambda: first the critical heap
floor `heap_ok(ASYNCWEBSERVER_MINIMUM_HEAP)` (modelled as the boolean
`heapOkMin`, since `ESP.getFreeHeap()` is external), then the soft
queue-limit check
`((queueHeapRequired > 0) && !heap_ok(queueHeapRequired)) || ((nMax > 0) && (length >= nMax))`
(its heap reading modelled as `queueHeapOk`), then the request
allocation (success `requestAllocOk`). -/
def onClient (limits : AsyncWebServerQueueLimits) (heapOkMin queueHeapOk : Bool)
    (queueLen : Nat) (requestAllocOk : Bool) : ClientAction :=
  if heapOkMin = false then ClientAction.drop
  else if (limits.queueHeapRequired ≠ 0 ∧ queueHeapOk = false)
      ∨ (limits.nMax ≠ 0 ∧ limits.nMax ≤ queueLen) then ClientAction.reject503
  else if requestAllocOk = false then ClientAction.abortAllocFail
  else ClientAction.accept

/-- Whether the outcome sends the minimal pre-formatted 503 response on
the raw transport (only the queue-limit rejection path installs
`minimal_send_503`). -/
def sends503 : ClientAction → Bool
  | ClientAction.reject503 => true
  | _ => false

/-- Whether the outcome allocates a request object. -/
def allocatesRequest : ClientAction → Bool
  | ClientAction.accept => true
  | ClientAction.abortAllocFail => true
  | _ => false

/-- C4 (counterexample): a connection arriving while the heap is below the
critical floor (`heap_ok(ASYNCWEBSERVER_MINIMUM_HEAP)` false) is dropped —
`c->close(true); delete c;` — with nothing written: no 503 is sent, contrary
to the claim. -/
theorem c4_counterexample :
    onClient (AsyncWebServerQueueLimits.mk 0 0 0 0) false true 0 true
        = ClientAction.drop
    ∧ sends503 (onClient (AsyncWebServerQueueLimits.mk 0 0 0 0) false true 0 true)
        = false := by
  decide

/-- C4 (amended): when the heap is below the critical floor the connection
is rejected without allocating a request object, but by closing it
immediately with nothing sent; the minimal pre-formatted 503 is sent only
on the softer rejection path — heap above the critical floor but the
queue's heap reservation unmet or the queue full — and there only when
data arrives from the client. -/
theorem c4_lowheap_drops (limits : AsyncWebServerQueueLimits)
    (queueHeapOk : Bool) (queueLen : Nat) (requestAllocOk : Bool) :
    (onClient limits false queueHeapOk queueLen requestAllocOk = ClientAction.drop
      ∧ sends503 ClientAction.drop = false
      ∧ allocatesRequest ClientAction.drop = false)
    ∧ (sends503 (onClient limits true queueHeapOk queueLen requestAllocOk) = true
        ↔ ((limits.queueHeapRequired ≠ 0 ∧ queueHeapOk = false)
            ∨ (limits.nMax ≠ 0 ∧ limits.nMax ≤ queueLen))) := by
  constructor
  · exact ⟨rfl, rfl, rfl⟩
  · by_cases h : (limits.queueHeapRequired ≠ 0 ∧ queueHeapOk = false)
        ∨ (limits.nMax ≠ 0 ∧ limits.nMax ≤ queueLen)
    · simp [onClient, sends503, h]
    · by_cases ha : requestAllocOk = false
      · simp [onClient, sends503, h, ha]
      · simp [onClient, sends503, h, ha]
